import Mathlib

/-!
Verification of the API monetization gateway core: a shallow embedding of
the rate limiter, proxy forwarder, usage buffer and invoice engine,
with theorems checking the natural-language specification against it.

Instants are modelled as integer milliseconds of local time (uniform
86 400 000 ms days; the deployment timezone is absorbed into the epoch).
JavaScript `Date` calendar operations (`setMonth`, `getDate`,
`setHours(24,0,0,0)`) are modelled through civil-calendar conversion.
-/

namespace ApiMon

/-! ## Civil calendar arithmetic (model of JavaScript `Date` fields) -/

def dayMs : Int := 86400000

structure CivilDate where
  year : Int
  month : Int
  day : Int
deriving DecidableEq, Repr

/-- Serial day number from a civil date (days since 1970-01-01; the
field `day` may lie outside the month and rolls over linearly, exactly
as JavaScript date normalization does). -/
def daysFromCivil (year month day : Int) : Int :=
  let y := if month ≤ 2 then year - 1 else year
  let era := y.fdiv 400
  let yoe := y - era * 400
  let mp := (month + 9).emod 12
  let doy := (153 * mp + 2).fdiv 5 + day - 1
  let doe := yoe * 365 + yoe.fdiv 4 - yoe.fdiv 100 + doy
  era * 146097 + doe - 719468

/-- Civil date of a serial day number (inverse of `daysFromCivil` on
normalized dates). -/
def civilFromDays (z : Int) : CivilDate :=
  let z := z + 719468
  let era := z.fdiv 146097
  let doe := z - era * 146097
  let yoe := (doe - doe.fdiv 1460 + doe.fdiv 36524 - doe.fdiv 146096).fdiv 365
  let y := yoe + era * 400
  let doy := doe - (365 * yoe + yoe.fdiv 4 - yoe.fdiv 100)
  let mp := (5 * doy + 2).fdiv 153
  let d := doy - (153 * mp + 2).fdiv 5 + 1
  let m := if mp < 10 then mp + 3 else mp - 9
  ⟨if m ≤ 2 then y + 1 else y, m, d⟩

def msToDays (t : Int) : Int := t.fdiv dayMs

def msInDay (t : Int) : Int := t.emod dayMs

/-- Epoch milliseconds of a civil date at local midnight. -/
def civilMs (year month day : Int) : Int := daysFromCivil year month day * dayMs

def civilOfMs (t : Int) : CivilDate := civilFromDays (msToDays t)

/-- JavaScript `date.getDate()`: day of month, 1-based. -/
def getDate (t : Int) : Int := (civilOfMs t).day

/-- JavaScript `date.getFullYear()`. -/
def getFullYear (t : Int) : Int := (civilOfMs t).year

/-- JavaScript `d.setMonth(d.getMonth() + 1)` keeping day-of-month and
time-of-day: a day-of-month beyond the length of the target month rolls
over into the following month (no clamping). -/
def addOneMonthJS (t : Int) : Int :=
  let c := civilOfMs t
  let y := if c.month = 12 then c.year + 1 else c.year
  let m := if c.month = 12 then 1 else c.month + 1
  daysFromCivil y m c.day * dayMs + msInDay t

def isLeapYear (y : Int) : Bool := y % 4 == 0 && (y % 100 != 0 || y % 400 == 0)

def daysInMonth (y m : Int) : Int :=
  if m = 2 then (if isLeapYear y then 29 else 28)
  else if m = 4 ∨ m = 6 ∨ m = 9 ∨ m = 11 then 30
  else 31

/-- JavaScript `d.setHours(24, 0, 0, 0)`: the upcoming local midnight
strictly after the start of the current day. -/
def nextMidnight (t : Int) : Int := (msToDays t + 1) * dayMs

/-- `Math.ceil(a / b)` for positive `b` on exact integer inputs. -/
def cdiv (a b : Int) : Int := -((-a).fdiv b)

def monthName (m : Int) : String :=
  if m = 1 then "January" else if m = 2 then "February"
  else if m = 3 then "March" else if m = 4 then "April"
  else if m = 5 then "May" else if m = 6 then "June"
  else if m = 7 then "July" else if m = 8 then "August"
  else if m = 9 then "September" else if m = 10 then "October"
  else if m = 11 then "November" else if m = 12 then "December" else ""

/-- `periodStart.toLocaleString(default, month long / year numeric)`. -/
def monthYearString (t : Int) : String :=
  let c := civilOfMs t
  monthName c.month ++ " " ++ toString c.year

def padLeftZero (s : String) (n : Nat) : String :=
  if s.length ≥ n then s else String.mk (List.replicate (n - s.length) '0') ++ s

/-! ## RateLimitService (gateway)

`checkAndIncrement(customerId, limit)` reads the Redis hash
`rate:limit:{customerId}` with fields `count` and `resetAt`; the hash is
modelled as `Option RateEntry` (`none` = absent or empty hash), the
ambient clock `new Date()` as the argument `now`, and the Redis writes
as the returned new hash value. -/

structure RateEntry where
  count : Nat
  resetAt : Int
deriving DecidableEq, Repr

structure RateLimitResult where
  allowed : Bool
  remaining : Int
  resetAt : Int
deriving DecidableEq, Repr

def checkAndIncrement (now : Int) : Option RateEntry → Int → RateLimitResult × Option RateEntry
  | none, limit =>
    (⟨true, limit - 1, nextMidnight now⟩, some ⟨1, nextMidnight now⟩)
  | some e, limit =>
    if e.resetAt < now then
      (⟨true, limit - 1, nextMidnight now⟩, some ⟨1, nextMidnight now⟩)
    else if (e.count : Int) ≥ limit then
      (⟨false, 0, e.resetAt⟩, some e)
    else
      (⟨true, limit - (e.count : Int), e.resetAt⟩, some ⟨e.count + 1, e.resetAt⟩)

/-! ## ProxyService (gateway)

`forwardRequests` builds the target URL from the globally configured
`api.targetUrl` and the request URL (path plus query string) with the
leading `/api` stripped; `reqUrl.replace` of the anchored pattern is
string prefix removal, and the JavaScript `|| fallback` on the template
literal is truthiness on the empty string. -/

def stripApiPrefix (u : String) : String :=
  match u.data with
  | '/' :: 'a' :: 'p' :: 'i' :: rest => String.mk rest
  | _ => u

def urlPath (reqUrl : String) : String :=
  if stripApiPrefix reqUrl = "" then "/" else stripApiPrefix reqUrl

def jsOrString (s fallback : String) : String := if s = "" then fallback else s

/-- Target URL of `ProxyService.forwardRequests`:
`configService.get(api.targetUrl) + urlPath`, with the dead
`https://httpbin.org` fallback kept. The resolved developer record is
destructured from the request but takes no part in the URL. -/
def targetUrl (configTargetUrl : String) (reqUrl : String) : String :=
  jsOrString (configTargetUrl ++ urlPath reqUrl) ("https://httpbin.org" ++ urlPath reqUrl)

/-- The target URL as the specification describes it: the resolved
developer record supplies the base, a global default applying only when
the developer record has no URL. -/
def claimTargetUrl (developerUpstreamBaseUrl : Option String) (globalDefault : String)
    (strippedPathAndQuery : String) : String :=
  (developerUpstreamBaseUrl.getD globalDefault) ++ strippedPathAndQuery

/-! ## UsageTrackingService (gateway)

Redis lists are an association from key to list of strings, newest at
the head. `addUsageLog` performs four Redis calls wrapped in one
try/catch; fault injection `fail i` makes the i-th call throw, and the
error value carries the Redis state mutated so far (Redis is external,
partial writes persist). -/

abbrev RedisLists := List (String × List String)

def redisGetList (st : RedisLists) (k : String) : List String :=
  match st.find? (fun p => p.1 == k) with
  | some p => p.2
  | none => []

def redisSetList (st : RedisLists) (k : String) (v : List String) : RedisLists :=
  if (st.find? (fun p => p.1 == k)).isSome then
    st.map (fun p => if p.1 == k then (k, v) else p)
  else
    (k, v) :: st

def lpush (st : RedisLists) (k : String) (v : String) : RedisLists :=
  redisSetList st k (v :: redisGetList st k)

/-- `LTRIM key start stop` keeps the inclusive index range. -/
def ltrim (st : RedisLists) (k : String) (start stop : Nat) : RedisLists :=
  redisSetList st k (((redisGetList st k).drop start).take (stop - start + 1))

structure UsageLog where
  customerId : String
  apiKeyId : Nat
  endpoint : String
  method : String
  statusCode : String
  responseTime : Int
  timestampMs : Int
deriving DecidableEq, Repr

/-- `JSON.stringify(usage)` modelled as a field concatenation that is
injective enough for list membership. -/
def serializeUsage (u : UsageLog) : String :=
  u.customerId ++ "|" ++ toString u.apiKeyId ++ "|" ++ u.endpoint ++ "|" ++ u.method
    ++ "|" ++ u.statusCode ++ "|" ++ toString u.responseTime ++ "|" ++ toString u.timestampMs

inductive RedisErr where
  | err
deriving DecidableEq, Repr

/-- The body of `addUsageLog` before the catch: two lpush/ltrim pairs.
On a fault the error carries the partially mutated Redis state. -/
def addUsageLogBody (fail : Nat → Bool) (st : RedisLists) (u : UsageLog) :
    Except (RedisErr × RedisLists) RedisLists :=
  let customerKey := "usage:logs:" ++ u.customerId
  if fail 0 then .error (.err, st) else
  let st1 := lpush st customerKey (serializeUsage u)
  if fail 1 then .error (.err, st1) else
  let st2 := ltrim st1 customerKey 0 999
  if fail 2 then .error (.err, st2) else
  let st3 := lpush st2 "usage:logs:all" (serializeUsage u)
  if fail 3 then .error (.err, st3) else
  .ok (ltrim st3 "usage:logs:all" 0 4999)

/-- `addUsageLog`: the body under a catch-all that logs (`console.error`,
modelled as the boolean flag) and returns normally. The outer `Except`
is the service's interface to the request path. -/
def addUsageLog (fail : Nat → Bool) (st : RedisLists) (u : UsageLog) :
    Except RedisErr (RedisLists × Bool) :=
  match addUsageLogBody fail st u with
  | .ok st1 => .ok (st1, false)
  | .error (_, st1) => .ok (st1, true)

/-! ## Billing durable store (Prisma schema core)

Decimal(10,2) money columns are modelled as exact integers (the code
only copies and compares them). `paidAt` and `stripeInvoiceId` are
nullable columns. -/

inductive InvoiceStatus where
  | PENDING
  | PAID
  | OVERDUE
  | CANCELLED
deriving DecidableEq, Repr

structure Tier where
  id : Nat
  name : String
  price : Int
  rateLimit : Int
deriving DecidableEq, Repr

structure Customer where
  id : Nat
  name : String
  email : String
  tierId : Nat
  isActive : Bool
  createdAt : Int
deriving DecidableEq, Repr

structure UsageRecord where
  customerId : Nat
  timestamp : Int
deriving DecidableEq, Repr

structure Invoice where
  id : Nat
  invoiceNumber : String
  customerId : Nat
  periodStart : Int
  periodEnd : Int
  totalUsage : Int
  amount : Int
  status : InvoiceStatus
  dueDate : Int
  paidAt : Option Int
  stripeInvoiceId : Option String
  createdAt : Int
deriving DecidableEq, Repr

structure LineItem where
  id : Nat
  invoiceId : Nat
  description : String
  quantity : Int
  unitPrice : Int
  amount : Int
deriving DecidableEq, Repr

structure BillingDb where
  tiers : List Tier
  customers : List Customer
  usage : List UsageRecord
  invoices : List Invoice
  lineItems : List LineItem
  nextInvoiceId : Nat
  nextLineItemId : Nat
deriving DecidableEq, Repr

/-- Row identifiers already allocated are below the autoincrement
cursors (what a relational autoincrement column guarantees). -/
def BillingDb.wf (db : BillingDb) : Bool :=
  db.invoices.all (fun i => i.id < db.nextInvoiceId) &&
  db.lineItems.all (fun li => li.id < db.nextLineItemId && li.invoiceId < db.nextInvoiceId)

inductive BillingError where
  | badRequest
  | notFound
  | invalidData
  | loopLimit
  | futureStart
deriving DecidableEq, Repr

/-- `prisma.customer.findUnique(include tier)`: the required relation is
resolved by a second lookup; a dangling tier reference surfaces as
not-found. -/
def findCustomerWithTier (db : BillingDb) (customerId : Nat) : Option (Customer × Tier) :=
  match db.customers.find? (fun c => c.id == customerId) with
  | none => none
  | some cust =>
    match db.tiers.find? (fun t => t.id == cust.tierId) with
    | none => none
    | some t => some (cust, t)

/-! ## PricingService.calculateUsageForPeriod (billing) -/

/-- `usageHistory.count` with `timestamp gte start, lt end`. -/
def countUsageForPeriod (db : BillingDb) (customerId : Nat) (startDate endDate : Int) : Int :=
  ((db.usage.filter (fun u =>
    u.customerId == customerId && decide (startDate ≤ u.timestamp) &&
      decide (u.timestamp < endDate))).length : Int)

/-! ## InvoiceService (billing)

Operations return `Except error result × BillingDb`: the second
component is the durable store after the call, also on a thrown
exception (there is no transaction around `generateInvoice`). The
ambient clock `new Date()` is the explicit `now` argument. -/

structure InvoiceResponse where
  id : Nat
  invoiceNumber : String
  customerId : Nat
  customerName : String
  customerEmail : String
  periodStart : Int
  periodEnd : Int
  totalUsage : Int
  amount : Int
  status : InvoiceStatus
  dueDate : Int
  paidAt : Option Int
  stripeInvoiceId : Option String
  lineItems : List LineItem
deriving DecidableEq, Repr

/-- `findFirst` on an exact `(customerId, periodStart, periodEnd)` match. -/
def checkForDuplicateInvoice (db : BillingDb) (customerId : Nat) (periodStart periodEnd : Int) :
    Bool :=
  (db.invoices.find? (fun i =>
    i.customerId == customerId && i.periodStart == periodStart &&
      i.periodEnd == periodEnd)).isSome

/-- Max invoice number among those sharing the `INV-YYYY-MM-` prefix
(`findFirst orderBy invoiceNumber desc`), lexicographically. -/
def latestNumberWithPrefix (db : BillingDb) (pre : String) : Option String :=
  (db.invoices.filter (fun i => i.invoiceNumber.startsWith pre)).foldl
    (fun acc i =>
      match acc with
      | none => some i.invoiceNumber
      | some s => if compare s i.invoiceNumber == Ordering.lt then some i.invoiceNumber else some s)
    none

/-- `INV-YYYY-MM-NNN` from the generation month, `NNN` = previous max
in the month plus one (`parseInt(parts[3]) + 1`). -/
def generateInvoiceNumber (db : BillingDb) (now : Int) : String :=
  let c := civilOfMs now
  let pre := "INV-" ++ toString c.year ++ "-" ++ padLeftZero (toString c.month) 2 ++ "-"
  let seq : Nat :=
    match latestNumberWithPrefix db pre with
    | none => 1
    | some s => (((s.splitOn "-").getD 3 "").toNat?.getD 0) + 1
  pre ++ padLeftZero (toString seq) 3

/-- `getInvoiceById`: hydrate the invoice with its line items and
customer; a pure query. -/
def getInvoiceById (db : BillingDb) (invoiceId : Nat) : Except BillingError InvoiceResponse :=
  match db.invoices.find? (fun i => i.id == invoiceId) with
  | none => .error .notFound
  | some inv =>
    match db.customers.find? (fun c => c.id == inv.customerId) with
    | none => .error .notFound
    | some cust =>
      .ok { id := inv.id, invoiceNumber := inv.invoiceNumber, customerId := inv.customerId,
            customerName := cust.name, customerEmail := cust.email,
            periodStart := inv.periodStart, periodEnd := inv.periodEnd,
            totalUsage := inv.totalUsage, amount := inv.amount, status := inv.status,
            dueDate := inv.dueDate, paidAt := inv.paidAt,
            stripeInvoiceId := inv.stripeInvoiceId,
            lineItems := db.lineItems.filter (fun li => li.invoiceId == invoiceId) }

/-- `createInvoiceLineItems`: re-reads customer and usage, then inserts
the base-plan item and the informational zero-priced API-calls item.
(`usage.toLocaleString()` thousands grouping is elided in the label.) -/
def createInvoiceLineItems (db : BillingDb) (invoiceId customerId : Nat)
    (periodStart periodEnd : Int) : Except BillingError Unit × BillingDb :=
  match findCustomerWithTier db customerId with
  | none => (.error .notFound, db)
  | some (_, tier) =>
    let usage := countUsageForPeriod db customerId periodStart periodEnd
    let item1 : LineItem :=
      { id := db.nextLineItemId, invoiceId,
        description := tier.name ++ " Plan - " ++ monthYearString periodStart,
        quantity := 1, unitPrice := tier.price, amount := tier.price }
    let item2 : LineItem :=
      { id := db.nextLineItemId + 1, invoiceId,
        description := "API Calls: " ++ toString usage ++ " requests",
        quantity := usage, unitPrice := 0, amount := 0 }
    (.ok (), { db with lineItems := db.lineItems ++ [item1, item2],
                       nextLineItemId := db.nextLineItemId + 2 })

/-- The invoice row inserted by `generateInvoice`: usage counted over
`[periodStart, periodEnd)`, amount the tier price, status PENDING,
`dueDate = now + 7 days`. -/
def freshInvoice (db : BillingDb) (customerId : Nat) (periodStart periodEnd now : Int)
    (tier : Tier) : Invoice :=
  { id := db.nextInvoiceId, invoiceNumber := generateInvoiceNumber db now, customerId,
    periodStart, periodEnd,
    totalUsage := countUsageForPeriod db customerId periodStart periodEnd,
    amount := tier.price, status := .PENDING, dueDate := now + 7 * dayMs,
    paidAt := none, stripeInvoiceId := none, createdAt := now }

def dbWithInvoice (db : BillingDb) (inv : Invoice) : BillingDb :=
  { db with invoices := db.invoices ++ [inv], nextInvoiceId := db.nextInvoiceId + 1 }

/-- `generateInvoice(customerId, periodStart, periodEnd)`. -/
def generateInvoice (db : BillingDb) (customerId : Nat) (periodStart periodEnd now : Int) :
    Except BillingError InvoiceResponse × BillingDb :=
  if checkForDuplicateInvoice db customerId periodStart periodEnd then
    (.error .badRequest, db)
  else
    match findCustomerWithTier db customerId with
    | none => (.error .notFound, db)
    | some (_, tier) =>
      let inv := freshInvoice db customerId periodStart periodEnd now tier
      let db1 := dbWithInvoice db inv
      match createInvoiceLineItems db1 inv.id customerId periodStart periodEnd with
      | (.error e, db2) => (.error e, db2)
      | (.ok _, db2) => (getInvoiceById db2 inv.id, db2)

/-- `UpdateInvoiceStatusDto` under Prisma update semantics: `none` is a
field left `undefined` (column untouched), `some none` is an explicit
`null`, `some (some v)` sets the value. -/
structure UpdateInvoiceStatusDto where
  status : InvoiceStatus
  paidAt : Option (Option Int) := none
  stripeInvoiceId : Option (Option String) := none
deriving DecidableEq, Repr

def applyUpdateDto (dto : UpdateInvoiceStatusDto) (i : Invoice) : Invoice :=
  { i with status := dto.status,
           paidAt := match dto.paidAt with | none => i.paidAt | some v => v,
           stripeInvoiceId :=
             match dto.stripeInvoiceId with | none => i.stripeInvoiceId | some v => v }

/-- `updateInvoiceStatus`: look up, directly assign, re-read. -/
def updateInvoiceStatus (db : BillingDb) (invoiceId : Nat) (dto : UpdateInvoiceStatusDto) :
    Except BillingError InvoiceResponse × BillingDb :=
  match db.invoices.find? (fun i => i.id == invoiceId) with
  | none => (.error .notFound, db)
  | some _ =>
    let db1 : BillingDb :=
      { db with invoices :=
          db.invoices.map (fun i => if i.id == invoiceId then applyUpdateDto dto i else i) }
    (getInvoiceById db1 invoiceId, db1)

/-- `markInvoiceAsPaid(id, paidAt?)`: status PAID with
`paidAt || new Date()`; `stripeInvoiceId` is left `undefined`. -/
def markInvoiceAsPaid (db : BillingDb) (invoiceId : Nat) (paidAt : Option Int) (now : Int) :
    Except BillingError InvoiceResponse × BillingDb :=
  updateInvoiceStatus db invoiceId
    { status := .PAID, paidAt := some (some (paidAt.getD now)) }

/-- `markOverdueInvoices`: bulk `PENDING ∧ dueDate < now ↦ OVERDUE`,
returning the number of rows changed. -/
def markOverdueInvoices (db : BillingDb) (now : Int) : Nat × BillingDb :=
  let hit := fun (i : Invoice) => i.status == .PENDING && decide (i.dueDate < now)
  ((db.invoices.filter hit).length,
   { db with invoices :=
       db.invoices.map (fun i => if hit i then { i with status := .OVERDUE } else i) })

/-! ## BillingService.getCurrentBillingPeriod (billing)

The three `while (iterations < MAX_ITERATIONS)` loops are encoded with
fuel equal to the remaining iteration budget of 120; running out of fuel
is the post-loop `Failed to calculate billing period` error. Month
advancement is JavaScript `setMonth(getMonth() + 1)`. -/

structure BillingPeriod where
  periodStart : Int
  periodEnd : Int
  daysRemaining : Int
  cycleDay : Int
deriving DecidableEq, Repr

/-- Loop of the no-invoice branch (with the start-in-the-future guard). -/
def bpLoopFresh : Nat → Int → Int → Except BillingError (Int × Int)
  | 0, _, _ => .error .loopLimit
  | fuel + 1, now, ps =>
    let pe := addOneMonthJS ps
    if now ≥ ps ∧ now < pe then .ok (ps, pe)
    else if ps > now then .error .futureStart
    else bpLoopFresh fuel now pe

/-- Loop of the future-invoice fallback branch (no extra guards). -/
def bpLoopFallback : Nat → Int → Int → Except BillingError (Int × Int)
  | 0, _, _ => .error .loopLimit
  | fuel + 1, now, ps =>
    let pe := addOneMonthJS ps
    if now ≥ ps ∧ now < pe then .ok (ps, pe)
    else bpLoopFallback fuel now pe

/-- Loop of the last-invoice branch (guarded by the ten-year bound). -/
def bpLoopNext : Nat → Int → Int → Except BillingError (Int × Int)
  | 0, _, _ => .error .loopLimit
  | fuel + 1, now, ps =>
    let pe := addOneMonthJS ps
    if now ≥ ps ∧ now < pe then .ok (ps, pe)
    else if getFullYear ps > getFullYear now + 10 then .error .invalidData
    else bpLoopNext fuel now pe

/-- `findFirst orderBy periodEnd desc` over the customer's invoices. -/
def lastInvoiceOf (db : BillingDb) (customerId : Nat) : Option Invoice :=
  (db.invoices.filter (fun i => i.customerId == customerId)).foldl
    (fun acc i =>
      match acc with
      | none => some i
      | some j => if j.periodEnd < i.periodEnd then some i else some j)
    none

def MAX_BP_ITERATIONS : Nat := 120

def getCurrentBillingPeriod (db : BillingDb) (customerId : Nat) (now : Int) :
    Except BillingError BillingPeriod :=
  match db.customers.find? (fun c => c.id == customerId) with
  | none => .error .notFound
  | some cust =>
    let window : Except BillingError (Int × Int) :=
      match lastInvoiceOf db customerId with
      | none =>
        if getFullYear cust.createdAt > getFullYear now + 100 then .error .invalidData
        else bpLoopFresh MAX_BP_ITERATIONS now cust.createdAt
      | some lastInv =>
        if getFullYear lastInv.periodEnd > getFullYear now + 100 then .error .invalidData
        else if lastInv.periodEnd > now then
          bpLoopFallback MAX_BP_ITERATIONS now cust.createdAt
        else
          bpLoopNext MAX_BP_ITERATIONS now (lastInv.periodEnd + dayMs)
    match window with
    | .error e => .error e
    | .ok (ps, pe) =>
      let cycleDay :=
        match lastInvoiceOf db customerId with
        | none => getDate cust.createdAt
        | some lastInv => getDate lastInv.periodEnd
      .ok { periodStart := ps, periodEnd := pe,
            daysRemaining := cdiv (pe - now) dayMs, cycleDay }

/-! ## Specification-side billing window constructions

`claimWindowClamped` follows the claim's words exactly: repeated
calendar-month addition clamping to the last day of a shorter target
month. `claimWindowJS` is the amended construction with JavaScript
overflow month addition. Both stop at the first window containing
`now`. -/

/-- One calendar month later, clamping day-of-month to the target
month's length (the claim's month arithmetic). -/
def addOneMonthClamped (t : Int) : Int :=
  let c := civilOfMs t
  let y := if c.month = 12 then c.year + 1 else c.year
  let m := if c.month = 12 then 1 else c.month + 1
  daysFromCivil y m (min c.day (daysInMonth y m)) * dayMs + msInDay t

def claimWindowClamped : Nat → Int → Int → Option (Int × Int)
  | 0, _, _ => none
  | fuel + 1, now, s =>
    let e := addOneMonthClamped s
    if s ≤ now ∧ now < e then some (s, e) else claimWindowClamped fuel now e

def claimWindowJS : Nat → Int → Int → Option (Int × Int)
  | 0, _, _ => none
  | fuel + 1, now, s =>
    let e := addOneMonthJS s
    if s ≤ now ∧ now < e then some (s, e) else claimWindowJS fuel now e

/-! ## Invoice-engine operation sequences (for the PAID/paidAt invariant) -/

inductive InvoiceOp where
  | gen (customerId : Nat) (periodStart periodEnd now : Int)
  | update (invoiceId : Nat) (dto : UpdateInvoiceStatusDto)
  | markPaid (invoiceId : Nat) (paidAt : Option Int) (now : Int)
  | markOverdue (now : Int)

/-- Run one invoice-engine operation, keeping the durable store that the
call leaves behind whether or not it threw. -/
def applyOp (db : BillingDb) : InvoiceOp → BillingDb
  | .gen c s e now => (generateInvoice db c s e now).2
  | .update id dto => (updateInvoiceStatus db id dto).2
  | .markPaid id p now => (markInvoiceAsPaid db id p now).2
  | .markOverdue now => (markOverdueInvoices db now).2

def applyOps (db : BillingDb) (ops : List InvoiceOp) : BillingDb :=
  ops.foldl applyOp db

/-- The data-model invariant: a PAID invoice carries a payment instant. -/
def paidInvariant (db : BillingDb) : Prop :=
  ∀ i ∈ db.invoices, i.status = .PAID → i.paidAt ≠ none

def paidInvariantB (db : BillingDb) : Bool :=
  db.invoices.all (fun i => i.status != .PAID || i.paidAt.isSome)

/-- A direct status update that sets PAID must supply a payment instant
(the condition under which the invariant survives `updateInvoiceStatus`). -/
def suppliesPaidAt : InvoiceOp → Prop
  | .update _ dto => dto.status = .PAID → ∃ t, dto.paidAt = some (some t)
  | _ => True

/-! ## Shared list helpers -/

theorem find?_append_last {α} (l : List α) (x : α) (p : α → Bool)
    (hl : ∀ a ∈ l, p a = false) (hx : p x = true) :
    (l ++ [x]).find? p = some x := by
  induction l with
  | nil => simp [List.find?, hx]
  | cons a t ih =>
    have ha := hl a (by simp)
    rw [List.cons_append, List.find?_cons_of_neg _ (by simp [ha])]
    exact ih (fun b hb => hl b (by simp [hb]))

theorem find?_map_id_comm (l : List Invoice) (targetId : Nat) (f : Invoice → Invoice)
    (hf : ∀ i, (f i).id = i.id) :
    (l.map f).find? (fun i => i.id == targetId) =
      (l.find? (fun i => i.id == targetId)).map f := by
  induction l with
  | nil => rfl
  | cons a t ih =>
    have hfa : ((f a).id == targetId) = (a.id == targetId) := by rw [hf]
    cases h : (a.id == targetId) with
    | true => simp [List.find?_cons, hfa, h]
    | false => simp [List.find?_cons, hfa, h, ih]

/-! ## Claims about the rate limiter -/

/-- Claim C5: a customer whose stored rate hash is unexpired
(`resetAt > now`) and whose count has reached the quota is denied with
remaining 0 and the stored resetAt, and the stored hash is unchanged. -/
theorem checkAndIncrement_denied_frame (now : Int) (e : RateEntry) (limit : Int)
    (hfresh : now < e.resetAt) (hcount : (e.count : Int) ≥ limit) :
    checkAndIncrement now (some e) limit = (⟨false, 0, e.resetAt⟩, some e) := by
  simp only [checkAndIncrement]
  rw [if_neg (by omega), if_pos hcount]

theorem checkAndIncrement_denied_frame_witness :
    checkAndIncrement 1000 (some ⟨7, 2000⟩) 5 = (⟨false, 0, 2000⟩, some ⟨7, 2000⟩) :=
  checkAndIncrement_denied_frame 1000 ⟨7, 2000⟩ 5 (by decide) (by decide)

/-- Claim C3 counterexample: at the boundary instant `resetAt = now`
the claim demands a reset (count 1, remaining quota − 1), but the code
only resets when `resetAt < now` strictly: with count 5, quota 10 and
`resetAt = now = 1000` the call increments to 6 and returns
remaining 5, not the claimed reset outcome. -/
theorem checkAndIncrement_boundary_cex :
    (1000 : Int) ≤ 1000 ∧
    checkAndIncrement 1000 (some ⟨5, 1000⟩) 10 = (⟨true, 5, 1000⟩, some ⟨6, 1000⟩) ∧
    checkAndIncrement 1000 (some ⟨5, 1000⟩) 10 ≠
      (⟨true, 10 - 1, nextMidnight 1000⟩, some ⟨1, nextMidnight 1000⟩) :=
  ⟨by decide, by decide, by decide⟩

/-- Claim C3 (amended): when the stored rate hash is absent or its
stored resetAt is strictly earlier than now, checkAndIncrement stores
count 1 with resetAt the next local midnight and returns allowed with
remaining = quota − 1. -/
theorem checkAndIncrement_reset (now : Int) (entry : Option RateEntry) (limit : Int)
    (h : entry = none ∨ ∃ e, entry = some e ∧ e.resetAt < now) :
    checkAndIncrement now entry limit =
      (⟨true, limit - 1, nextMidnight now⟩, some ⟨1, nextMidnight now⟩) := by
  rcases h with h | ⟨e, rfl, hlt⟩
  · subst h; rfl
  · simp only [checkAndIncrement]
    rw [if_pos hlt]

theorem checkAndIncrement_reset_witness :
    checkAndIncrement 1000 (some ⟨3, 0⟩) 7 = (⟨true, 6, 86400000⟩, some ⟨1, 86400000⟩) :=
  checkAndIncrement_reset 1000 (some ⟨3, 0⟩) 7 (Or.inr ⟨⟨3, 0⟩, rfl, by decide⟩)

/-- Claim C4 counterexample: quota 0 is not short-circuited to allowed;
with an unexpired stored counter (count 1, resetAt 2000 > now 1000) the
call returns denied. -/
theorem checkAndIncrement_quota_zero_cex :
    (checkAndIncrement 1000 (some ⟨1, 2000⟩) 0).1.allowed = false :=
  by decide

/-- Claim C4 (amended): quota 0 receives no special treatment: an
unexpired stored counter is always denied (its count is never below
the quota of 0), and only an absent counter yields allowed, with
remaining = −1. -/
theorem checkAndIncrement_quota_zero (now : Int) :
    (∀ e : RateEntry, ¬ e.resetAt < now →
      checkAndIncrement now (some e) 0 = (⟨false, 0, e.resetAt⟩, some e)) ∧
    (checkAndIncrement now none 0).1.remaining = -1 := by
  constructor
  · intro e hfresh
    simp only [checkAndIncrement]
    rw [if_neg hfresh, if_pos (by positivity)]
  · rfl

theorem checkAndIncrement_quota_zero_witness :
    checkAndIncrement 1000 (some ⟨0, 1000⟩) 0 = (⟨false, 0, 1000⟩, some ⟨0, 1000⟩) ∧
    (checkAndIncrement 1000 none 0).1.remaining = -1 :=
  ⟨(checkAndIncrement_quota_zero 1000).1 ⟨0, 1000⟩ (by decide),
   (checkAndIncrement_quota_zero 1000).2⟩

/-! ## Claims about the proxy forwarder -/

/-- Claim C1 counterexample: with a developer whose record carries
upstream base URL `https://dev.example.com` and global configuration
`https://global.example.com`, the forwarder targets the global URL,
not the developer URL the claim prescribes. -/
theorem targetUrl_ignores_developer_cex :
    targetUrl "https://global.example.com" "/api/get" = "https://global.example.com/get" ∧
    claimTargetUrl (some "https://dev.example.com") "https://global.example.com"
        (urlPath "/api/get") = "https://dev.example.com/get" ∧
    targetUrl "https://global.example.com" "/api/get" ≠
      claimTargetUrl (some "https://dev.example.com") "https://global.example.com"
        (urlPath "/api/get") :=
  ⟨by decide, by decide, by decide⟩

/-- Claim C1 (amended): the forwarder's target URL is always the
globally configured target URL followed by the stripped path and query;
the resolved developer record plays no part, and the hard-coded
httpbin fallback is unreachable because the concatenation is never the
empty string. -/
theorem targetUrl_uses_global_config (cfg reqUrl : String) :
    targetUrl cfg reqUrl = cfg ++ urlPath reqUrl := by
  have hpath : urlPath reqUrl ≠ "" := by
    unfold urlPath
    split
    · intro h
      exact absurd (congrArg String.data h) (by decide)
    · assumption

  have hne : cfg ++ urlPath reqUrl ≠ "" := by
    intro hc
    have hdata := congrArg String.data hc
    rw [String.data_append] at hdata
    exact hpath (String.ext (List.append_eq_nil.mp hdata).2)
  unfold targetUrl jsOrString
  rw [if_neg hne]

/-! ## Claim about the usage buffer -/

/-- Claim C10: addUsageLog is total at its interface: whatever Redis
faults occur during its push and trim calls, it returns normally with
the Redis state as mutated so far, and the logged flag records exactly
whether a fault was caught. -/
theorem addUsageLog_total (fail : Nat → Bool) (st : RedisLists) (u : UsageLog) :
    ∃ st1 logged, addUsageLog fail st u = .ok (st1, logged) ∧
      (logged = false ↔ (addUsageLogBody fail st u).isOk = true) := by
  unfold addUsageLog
  cases h : addUsageLogBody fail st u with
  | ok s =>
    exact ⟨s, false, rfl, by simp [Except.isOk, Except.toBool]⟩
  | error p =>
    obtain ⟨p1, p2⟩ := p
    exact ⟨p2, true, rfl, by simp [Except.isOk, Except.toBool]⟩

/-! ## Claims about the invoice status lifecycle -/

/-- A store with a single PENDING invoice, its customer and tier. -/
def pendingInvoiceDb : BillingDb :=
  { tiers := [⟨1, "Pro", 99, 1000⟩],
    customers := [⟨1, "Acme", "acme@example.com", 1, true, 0⟩],
    usage := [],
    invoices := [⟨1, "INV-2024-01-001", 1, 0, 100, 0, 99, .PENDING, 50, none, none, 0⟩],
    lineItems := [], nextInvoiceId := 2, nextLineItemId := 1 }

/-- Claim C8 counterexample: `markInvoiceAsPaid` at time 1000 sets
paidAt 1000; a second call at time 2000 keeps status PAID but
overwrites paidAt with 2000 (`paidAt || new Date()` evaluates a fresh
clock on every call), so the value set by the first call is altered. -/
theorem markPaid_changes_paidAt_cex :
    ((markInvoiceAsPaid pendingInvoiceDb 1 none 1000).2.invoices.find?
        (fun i => i.id == 1)).map Invoice.paidAt = some (some 1000) ∧
    ((markInvoiceAsPaid (markInvoiceAsPaid pendingInvoiceDb 1 none 1000).2
          1 none 2000).2.invoices.find?
        (fun i => i.id == 1)).map Invoice.paidAt = some (some 2000) ∧
    ((markInvoiceAsPaid (markInvoiceAsPaid pendingInvoiceDb 1 none 1000).2
          1 none 2000).2.invoices.find?
        (fun i => i.id == 1)).map Invoice.status = some .PAID ∧
    (some (some 2000) : Option (Option Int)) ≠ some (some 1000) :=
  ⟨by decide, by decide, by decide, by decide⟩

/-- Evaluation of `getInvoiceById` when invoice and customer resolve. -/
theorem getInvoiceById_eq (db : BillingDb) (invoiceId : Nat) (inv : Invoice) (cust : Customer)
    (hfind : db.invoices.find? (fun i => i.id == invoiceId) = some inv)
    (hcust : db.customers.find? (fun c => c.id == inv.customerId) = some cust) :
    getInvoiceById db invoiceId = .ok
      { id := inv.id, invoiceNumber := inv.invoiceNumber, customerId := inv.customerId,
        customerName := cust.name, customerEmail := cust.email,
        periodStart := inv.periodStart, periodEnd := inv.periodEnd,
        totalUsage := inv.totalUsage, amount := inv.amount, status := inv.status,
        dueDate := inv.dueDate, paidAt := inv.paidAt,
        stripeInvoiceId := inv.stripeInvoiceId,
        lineItems := db.lineItems.filter (fun li => li.invoiceId == invoiceId) } := by
  unfold getInvoiceById
  simp only [hfind]
  simp only [hcust]

/-- The store after the row update performed by `updateInvoiceStatus`. -/
def updatedDb (db : BillingDb) (invoiceId : Nat) (dto : UpdateInvoiceStatusDto) : BillingDb :=
  { db with invoices :=
      db.invoices.map (fun i => if i.id == invoiceId then applyUpdateDto dto i else i) }

/-- Evaluation of `updateInvoiceStatus` when the invoice resolves. -/
theorem updateInvoiceStatus_eq (db : BillingDb) (invoiceId : Nat)
    (dto : UpdateInvoiceStatusDto) (inv : Invoice)
    (hfind : db.invoices.find? (fun i => i.id == invoiceId) = some inv) :
    updateInvoiceStatus db invoiceId dto =
      (getInvoiceById (updatedDb db invoiceId dto) invoiceId, updatedDb db invoiceId dto) := by
  unfold updateInvoiceStatus updatedDb
  simp only [hfind]

/-- After the row update of `updateInvoiceStatus`, the invoice is found
with the dto applied. -/
theorem find?_after_update (db : BillingDb) (invoiceId : Nat)
    (dto : UpdateInvoiceStatusDto) (inv : Invoice)
    (hfind : db.invoices.find? (fun i => i.id == invoiceId) = some inv) :
    (updatedDb db invoiceId dto).invoices.find? (fun i => i.id == invoiceId)
      = some (applyUpdateDto dto inv) := by
  have hid : (inv.id == invoiceId) = true := by simpa using List.find?_some hfind
  have hg : ∀ i : Invoice,
      ((fun i => if i.id == invoiceId then applyUpdateDto dto i else i) i).id = i.id := by
    intro i
    by_cases h : (i.id == invoiceId) = true <;> simp [h, applyUpdateDto]
  have hgi : (if (inv.id == invoiceId) = true then applyUpdateDto dto inv else inv)
      = applyUpdateDto dto inv := if_pos hid
  unfold updatedDb
  rw [show ({ db with invoices :=
        db.invoices.map (fun i => if i.id == invoiceId then applyUpdateDto dto i else i) }
      : BillingDb).invoices
    = db.invoices.map (fun i => if i.id == invoiceId then applyUpdateDto dto i else i) from rfl]
  rw [find?_map_id_comm _ _ _ hg, hfind]
  exact congrArg some hgi

theorem getInvoiceById_ok_inversion (db : BillingDb) (invoiceId : Nat) (r : InvoiceResponse)
    (h : getInvoiceById db invoiceId = .ok r) :
    ∃ inv cust, db.invoices.find? (fun i => i.id == invoiceId) = some inv ∧
      db.customers.find? (fun c => c.id == inv.customerId) = some cust := by
  unfold getInvoiceById at h
  split at h
  · exact absurd h (by simp)
  · rename_i inv hfind
    split at h
    · exact absurd h (by simp)
    · rename_i cust hcust
      exact ⟨inv, cust, hfind, hcust⟩

theorem updateInvoiceStatus_ok_inversion (db : BillingDb) (invoiceId : Nat)
    (dto : UpdateInvoiceStatusDto) (r : InvoiceResponse)
    (h : (updateInvoiceStatus db invoiceId dto).1 = .ok r) :
    ∃ inv cust, db.invoices.find? (fun i => i.id == invoiceId) = some inv ∧
      db.customers.find? (fun c => c.id == inv.customerId) = some cust := by
  cases hfind : db.invoices.find? (fun i => i.id == invoiceId) with
  | none =>
    unfold updateInvoiceStatus at h
    simp only [hfind] at h
    exact absurd h (by simp)
  | some inv =>
    rw [updateInvoiceStatus_eq db invoiceId dto inv hfind] at h
    have h2 : getInvoiceById (updatedDb db invoiceId dto) invoiceId = .ok r := h
    obtain ⟨inv1, cust, hfind1, hcust1⟩ := getInvoiceById_ok_inversion _ _ _ h2
    rw [find?_after_update db invoiceId dto inv hfind] at hfind1
    have heq : applyUpdateDto dto inv = inv1 := by injection hfind1
    subst heq
    exact ⟨inv, cust, rfl, hcust1⟩

/-- Claim C8 (amended): `markInvoiceAsPaid` is idempotent on the status
only: after a successful call, a second call still succeeds and leaves
status PAID, but it overwrites paidAt with the second call's clock
value. -/
theorem markPaid_second_call (db : BillingDb) (invoiceId : Nat) (p1 : Option Int)
    (now1 now2 : Int) (r1 : InvoiceResponse)
    (h1 : (markInvoiceAsPaid db invoiceId p1 now1).1 = .ok r1) :
    ∃ r2, (markInvoiceAsPaid (markInvoiceAsPaid db invoiceId p1 now1).2
        invoiceId none now2).1 = .ok r2 ∧
      r2.status = .PAID ∧ r2.paidAt = some now2 := by
  simp only [markInvoiceAsPaid] at h1 ⊢
  obtain ⟨inv, cust, hfind, hcust⟩ := updateInvoiceStatus_ok_inversion _ _ _ _ h1
  rw [updateInvoiceStatus_eq db invoiceId _ inv hfind]
  have hfind1 := find?_after_update db invoiceId
    { status := .PAID, paidAt := some (some (p1.getD now1)) } inv hfind
  rw [updateInvoiceStatus_eq _ invoiceId _ _ hfind1]
  have hfind2 := find?_after_update _ invoiceId
    { status := .PAID, paidAt := some (some (Option.getD none now2)) } _ hfind1
  rw [getInvoiceById_eq _ invoiceId _ cust hfind2 hcust]
  exact ⟨_, rfl, rfl, rfl⟩

theorem markPaid_second_call_witness :
    ∃ r2, (markInvoiceAsPaid (markInvoiceAsPaid pendingInvoiceDb 1 none 1000).2
        1 none 2000).1 = .ok r2 ∧
      r2.status = .PAID ∧ r2.paidAt = some 2000 :=
  markPaid_second_call pendingInvoiceDb 1 none 1000 2000
    { id := 1, invoiceNumber := "INV-2024-01-001", customerId := 1,
      customerName := "Acme", customerEmail := "acme@example.com",
      periodStart := 0, periodEnd := 100, totalUsage := 0, amount := 99,
      status := .PAID, dueDate := 50, paidAt := some 1000,
      stripeInvoiceId := none, lineItems := [] }
    (by rfl)

theorem createInvoiceLineItems_invoices (db : BillingDb) (invoiceId customerId : Nat)
    (s e : Int) :
    (createInvoiceLineItems db invoiceId customerId s e).2.invoices = db.invoices := by
  unfold createInvoiceLineItems
  split
  · rfl
  · rfl

theorem paidInvariant_update (db : BillingDb) (invoiceId : Nat)
    (dto : UpdateInvoiceStatusDto)
    (hdto : dto.status = .PAID → ∃ t, dto.paidAt = some (some t))
    (h : paidInvariant db) : paidInvariant (updateInvoiceStatus db invoiceId dto).2 := by
  unfold updateInvoiceStatus
  split
  · exact h
  · intro i hi
    rcases List.mem_map.mp hi with ⟨a, ha, rfl⟩
    by_cases hid : (a.id == invoiceId) = true
    · rw [if_pos hid]
      intro hP
      obtain ⟨t, hpd⟩ := hdto hP
      show (applyUpdateDto dto a).paidAt ≠ none
      unfold applyUpdateDto
      simp [hpd]
    · rw [if_neg hid]
      exact h a ha

theorem generateInvoice_mem_invoices (db : BillingDb) (c : Nat) (s e now : Int) :
    ∀ i ∈ (generateInvoice db c s e now).2.invoices,
      i ∈ db.invoices ∨ i.status = .PENDING := by
  unfold generateInvoice
  split
  · exact fun i hi => Or.inl hi
  · split
    · exact fun i hi => Or.inl hi
    · rename_i fst tier heq2
      dsimp only
      split
      all_goals
        rename_i x2 db2 heq3
        intro i hi
        have hi2 : i ∈ (createInvoiceLineItems
            (dbWithInvoice db (freshInvoice db c s e now tier))
            (freshInvoice db c s e now tier).id c s e).2.invoices := by
          rw [heq3]
          exact hi
        rw [createInvoiceLineItems_invoices] at hi2
        have hi3 : i ∈ db.invoices ++ [freshInvoice db c s e now tier] := hi2
        rcases List.mem_append.mp hi3 with hmem | hmem
        · exact Or.inl hmem
        · rw [List.mem_singleton.mp hmem]
          exact Or.inr rfl

theorem paidInvariant_step (db : BillingDb) (op : InvoiceOp)
    (hop : suppliesPaidAt op) (h : paidInvariant db) : paidInvariant (applyOp db op) := by
  cases op with
  | gen c s e now =>
    intro i hi
    rcases generateInvoice_mem_invoices db c s e now i hi with hmem | hpend
    · exact h i hmem
    · intro hP
      rw [hpend] at hP
      exact nomatch hP
  | update id dto =>
    exact paidInvariant_update db id dto hop h
  | markPaid id p now =>
    exact paidInvariant_update db id _ (fun _ => ⟨p.getD now, rfl⟩) h
  | markOverdue now =>
    intro i hi
    have hi2 : i ∈ db.invoices.map
        (fun j => if j.status == InvoiceStatus.PENDING && decide (j.dueDate < now)
          then { j with status := InvoiceStatus.OVERDUE } else j) := hi
    rcases List.mem_map.mp hi2 with ⟨a, ha, rfl⟩
    by_cases hhit : (a.status == InvoiceStatus.PENDING && decide (a.dueDate < now)) = true
    · rw [if_pos hhit]
      intro hP
      exact nomatch hP
    · rw [if_neg hhit]
      exact h a ha

/-- Claim C9 counterexample: from a store satisfying the invariant
(one PENDING invoice, paidAt null), the single operation
`updateInvoiceStatus(1, status := PAID)` with paidAt left undefined
produces a PAID invoice whose paidAt is still null: the invariant does
not survive every operation sequence. -/
theorem paid_invariant_broken_cex :
    paidInvariant pendingInvoiceDb ∧
    ¬ paidInvariant (applyOps pendingInvoiceDb
        [.update 1 { status := .PAID, paidAt := none, stripeInvoiceId := none }]) := by
  constructor
  · unfold paidInvariant
    decide
  · unfold paidInvariant
    decide

/-- Claim C9 (amended): the invariant (status PAID implies paidAt
non-null) is preserved by every sequence of invoice-engine operations
in which each direct status update that sets PAID supplies a non-null
paidAt; generateInvoice, markInvoiceAsPaid and markOverdueInvoices are
unconditionally safe. -/
theorem paidInvariant_preserved (db : BillingDb) (ops : List InvoiceOp)
    (hdb : paidInvariant db) (hops : ∀ op ∈ ops, suppliesPaidAt op) :
    paidInvariant (applyOps db ops) := by
  induction ops generalizing db with
  | nil => exact hdb
  | cons op rest ih =>
    exact ih (applyOp db op)
      (paidInvariant_step db op (hops op (List.mem_cons_self op rest)) hdb)
      (fun o ho => hops o (List.mem_cons_of_mem _ ho))

theorem paidInvariant_preserved_witness :
    paidInvariant (applyOps pendingInvoiceDb
      [.markPaid 1 none 500,
       .update 1 { status := .OVERDUE, paidAt := none, stripeInvoiceId := none },
       .markOverdue 600]) :=
  paidInvariant_preserved pendingInvoiceDb
    [.markPaid 1 none 500,
     .update 1 { status := .OVERDUE, paidAt := none, stripeInvoiceId := none },
     .markOverdue 600]
    (by unfold paidInvariant; decide)
    (by
      intro op hop
      fin_cases hop
      · trivial
      · intro hP
        exact absurd hP (by decide)
      · trivial)

/-! ## Claims about invoice generation -/

theorem find?_append_isSome {α} (l : List α) (x : α) (p : α → Bool) (hx : p x = true) :
    ((l ++ [x]).find? p).isSome = true := by
  induction l with
  | nil => simp [List.find?, hx]
  | cons a t ih =>
    cases h : p a
    · rw [List.cons_append, List.find?_cons_of_neg _ (by simp [h])]
      exact ih
    · rw [List.cons_append, List.find?_cons_of_pos _ h]
      rfl

theorem filter_append_pair {α} (l : List α) (x y : α) (p : α → Bool)
    (hl : ∀ a ∈ l, p a = false) (hx : p x = true) (hy : p y = true) :
    (l ++ [x, y]).filter p = [x, y] := by
  rw [List.filter_append, List.filter_eq_nil_iff.mpr (by intro a ha; simp [hl a ha])]
  simp [List.filter_cons, hx, hy]

theorem findCustomerWithTier_inversion (db : BillingDb) (c : Nat)
    (cust : Customer) (tier : Tier)
    (h : findCustomerWithTier db c = some (cust, tier)) :
    db.customers.find? (fun x => x.id == c) = some cust ∧
    db.tiers.find? (fun t => t.id == cust.tierId) = some tier := by
  unfold findCustomerWithTier at h
  split at h
  · exact absurd h (by simp)
  · rename_i cust2 hfind2
    split at h
    · exact absurd h (by simp)
    · rename_i tier2 hfind3
      have hp : cust2 = cust ∧ tier2 = tier := by
        have h2 := Option.some.inj h
        exact ⟨congrArg Prod.fst h2, congrArg Prod.snd h2⟩
      obtain ⟨rfl, rfl⟩ := hp
      exact ⟨hfind2, hfind3⟩

/-- Evaluation of `createInvoiceLineItems` when the customer resolves. -/
theorem createInvoiceLineItems_eq (db : BillingDb) (invoiceId customerId : Nat)
    (s e : Int) (cust : Customer) (tier : Tier)
    (hcust : findCustomerWithTier db customerId = some (cust, tier)) :
    createInvoiceLineItems db invoiceId customerId s e =
      (.ok (), { db with
        lineItems := db.lineItems ++
          [{ id := db.nextLineItemId, invoiceId,
             description := tier.name ++ " Plan - " ++ monthYearString s,
             quantity := 1, unitPrice := tier.price, amount := tier.price },
           { id := db.nextLineItemId + 1, invoiceId,
             description := "API Calls: "
               ++ toString (countUsageForPeriod db customerId s e) ++ " requests",
             quantity := countUsageForPeriod db customerId s e,
             unitPrice := 0, amount := 0 }],
        nextLineItemId := db.nextLineItemId + 2 }) := by
  unfold createInvoiceLineItems
  simp only [hcust]

/-- The durable store after a successful `generateInvoice`: the fresh
PENDING invoice plus its two line items. -/
def postGenDb (db : BillingDb) (c : Nat) (s e now : Int) (tier : Tier) : BillingDb :=
  { db with
    invoices := db.invoices ++ [freshInvoice db c s e now tier],
    lineItems := db.lineItems ++
      [{ id := db.nextLineItemId, invoiceId := db.nextInvoiceId,
         description := tier.name ++ " Plan - " ++ monthYearString s,
         quantity := 1, unitPrice := tier.price, amount := tier.price },
       { id := db.nextLineItemId + 1, invoiceId := db.nextInvoiceId,
         description := "API Calls: "
           ++ toString (countUsageForPeriod db c s e) ++ " requests",
         quantity := countUsageForPeriod db c s e, unitPrice := 0, amount := 0 }],
    nextInvoiceId := db.nextInvoiceId + 1,
    nextLineItemId := db.nextLineItemId + 2 }

/-- Evaluation of `generateInvoice` on the success path. -/
theorem generateInvoice_eq_of_fresh (db : BillingDb) (c : Nat) (s e now : Int)
    (cust : Customer) (tier : Tier)
    (hdup : checkForDuplicateInvoice db c s e = false)
    (hcust : findCustomerWithTier db c = some (cust, tier)) :
    generateInvoice db c s e now =
      (getInvoiceById (postGenDb db c s e now tier) db.nextInvoiceId,
       postGenDb db c s e now tier) := by
  unfold generateInvoice
  rw [if_neg (by simp [hdup])]
  simp only [hcust]
  rw [createInvoiceLineItems_eq (dbWithInvoice db (freshInvoice db c s e now tier))
    (freshInvoice db c s e now tier).id c s e cust tier hcust]
  rfl

/-- A well-formed store with one customer, one tier, no invoices and
three usage records (one inside the period `[0, 100)`). -/
def s2Db : BillingDb :=
  { tiers := [⟨1, "Pro", 99, 1000⟩],
    customers := [⟨1, "Acme", "acme@example.com", 1, true, 0⟩],
    usage := [⟨1, 10⟩, ⟨1, 150⟩, ⟨2, 20⟩],
    invoices := [], lineItems := [], nextInvoiceId := 1, nextLineItemId := 1 }

/-- The invoice response of `generateInvoice s2Db 1 0 100 0`. -/
def s2Response : InvoiceResponse :=
  { id := 1, invoiceNumber := "INV-1970-01-001", customerId := 1,
    customerName := "Acme", customerEmail := "acme@example.com",
    periodStart := 0, periodEnd := 100, totalUsage := 1, amount := 99,
    status := .PENDING, dueDate := 604800000, paidAt := none, stripeInvoiceId := none,
    lineItems :=
      [{ id := 1, invoiceId := 1, description := "Pro Plan - January 1970",
         quantity := 1, unitPrice := 99, amount := 99 },
       { id := 2, invoiceId := 1, description := "API Calls: 1 requests",
         quantity := 1, unitPrice := 0, amount := 0 }] }

/-- Claim C6: generateInvoice rejects an exact duplicate
`(customerId, periodStart, periodEnd)` with a bad-request error and in
that case leaves the store untouched; after a successful call, repeating
the call with the same arguments yields the duplicate error and changes
nothing. -/
theorem generateInvoice_duplicate_law (db : BillingDb) (c : Nat) (s e now now2 : Int) :
    (checkForDuplicateInvoice db c s e = true →
      generateInvoice db c s e now = (.error .badRequest, db)) ∧
    (∀ r, (generateInvoice db c s e now).1 = .ok r →
      generateInvoice (generateInvoice db c s e now).2 c s e now2 =
        (.error .badRequest, (generateInvoice db c s e now).2)) := by
  constructor
  · intro hdup
    unfold generateInvoice
    rw [if_pos hdup]
  · intro r hok
    by_cases hdup : checkForDuplicateInvoice db c s e = true
    · exfalso
      unfold generateInvoice at hok
      rw [if_pos hdup] at hok
      exact absurd hok (by simp)
    · have hdup2 : checkForDuplicateInvoice db c s e = false := by
        simpa using hdup
      cases hcust : findCustomerWithTier db c with
      | none =>
        exfalso
        unfold generateInvoice at hok
        rw [if_neg (by simp [hdup2])] at hok
        simp only [hcust] at hok
        exact absurd hok (by simp)
      | some p =>
        obtain ⟨cust, tier⟩ := p
        rw [generateInvoice_eq_of_fresh db c s e now cust tier hdup2 hcust]
        show generateInvoice (postGenDb db c s e now tier) c s e now2 =
          (.error .badRequest, postGenDb db c s e now tier)
        have hdup3 : checkForDuplicateInvoice (postGenDb db c s e now tier) c s e = true := by
          show ((db.invoices ++ [freshInvoice db c s e now tier]).find?
            (fun i => i.customerId == c && i.periodStart == s && i.periodEnd == e)).isSome
              = true
          exact find?_append_isSome _ _ _ (by simp [freshInvoice])
        unfold generateInvoice
        rw [if_pos hdup3]

theorem generateInvoice_duplicate_law_witness :
    generateInvoice pendingInvoiceDb 1 0 100 0 = (.error .badRequest, pendingInvoiceDb) ∧
    generateInvoice (generateInvoice s2Db 1 0 100 0).2 1 0 100 5 =
      (.error .badRequest, (generateInvoice s2Db 1 0 100 0).2) :=
  ⟨(generateInvoice_duplicate_law pendingInvoiceDb 1 0 100 0 0).1 (by rfl),
   (generateInvoice_duplicate_law s2Db 1 0 100 0 5).2 s2Response (by rfl)⟩

/-- Claim C2: after a successful
`generateInvoice(customerId, periodStart, periodEnd)`, getInvoiceById
returns the same response: status PENDING, amount = the customer's tier
price, totalUsage = the number of the customer's usage records with
timestamp in `[periodStart, periodEnd)`, and exactly two line items —
the tier plan item (quantity 1, unitPrice = amount = tier price) and the
informational API-calls item (quantity = usage count, unitPrice = 0,
amount = 0). -/
theorem generateInvoice_then_get (db : BillingDb) (c : Nat) (s e now : Int)
    (r : InvoiceResponse) (cust : Customer) (tier : Tier)
    (hwf : db.wf = true)
    (hcust : findCustomerWithTier db c = some (cust, tier))
    (hok : (generateInvoice db c s e now).1 = .ok r) :
    getInvoiceById (generateInvoice db c s e now).2 r.id = .ok r ∧
    r.status = .PENDING ∧
    r.amount = tier.price ∧
    r.totalUsage = countUsageForPeriod db c s e ∧
    r.lineItems =
      [{ id := db.nextLineItemId, invoiceId := db.nextInvoiceId,
         description := tier.name ++ " Plan - " ++ monthYearString s,
         quantity := 1, unitPrice := tier.price, amount := tier.price },
       { id := db.nextLineItemId + 1, invoiceId := db.nextInvoiceId,
         description := "API Calls: "
           ++ toString (countUsageForPeriod db c s e) ++ " requests",
         quantity := countUsageForPeriod db c s e, unitPrice := 0, amount := 0 }] := by
  by_cases hdup : checkForDuplicateInvoice db c s e = true
  · exfalso
    unfold generateInvoice at hok
    rw [if_pos hdup] at hok
    exact absurd hok (by simp)
  have hdup2 : checkForDuplicateInvoice db c s e = false := by simpa using hdup
  have hwfs := hwf
  unfold BillingDb.wf at hwfs
  rw [Bool.and_eq_true] at hwfs
  obtain ⟨hw1, hw2⟩ := hwfs
  rw [List.all_eq_true] at hw1 hw2
  have hwf1 : ∀ i ∈ db.invoices, (i.id == db.nextInvoiceId) = false := by
    intro i hi
    have hlt : i.id < db.nextInvoiceId := of_decide_eq_true (hw1 i hi)
    simp only [beq_eq_false_iff_ne]
    exact Nat.ne_of_lt hlt
  have hwf2 : ∀ li ∈ db.lineItems, (li.invoiceId == db.nextInvoiceId) = false := by
    intro li hli
    have h2 := hw2 li hli
    rw [Bool.and_eq_true] at h2
    have hlt : li.invoiceId < db.nextInvoiceId := of_decide_eq_true h2.2
    simp only [beq_eq_false_iff_ne]
    exact Nat.ne_of_lt hlt
  have hfind : (postGenDb db c s e now tier).invoices.find?
      (fun i => i.id == db.nextInvoiceId) = some (freshInvoice db c s e now tier) := by
    show (db.invoices ++ [freshInvoice db c s e now tier]).find?
      (fun i => i.id == db.nextInvoiceId) = some (freshInvoice db c s e now tier)
    exact find?_append_last _ _ _ hwf1 (by simp [freshInvoice])
  have hcust2 : (postGenDb db c s e now tier).customers.find?
      (fun x => x.id == (freshInvoice db c s e now tier).customerId) = some cust :=
    (findCustomerWithTier_inversion db c cust tier hcust).1
  have hget := getInvoiceById_eq (postGenDb db c s e now tier) db.nextInvoiceId
    (freshInvoice db c s e now tier) cust hfind hcust2
  have hfilter : (postGenDb db c s e now tier).lineItems.filter
      (fun li => li.invoiceId == db.nextInvoiceId) =
      [{ id := db.nextLineItemId, invoiceId := db.nextInvoiceId,
         description := tier.name ++ " Plan - " ++ monthYearString s,
         quantity := 1, unitPrice := tier.price, amount := tier.price },
       { id := db.nextLineItemId + 1, invoiceId := db.nextInvoiceId,
         description := "API Calls: "
           ++ toString (countUsageForPeriod db c s e) ++ " requests",
         quantity := countUsageForPeriod db c s e, unitPrice := 0, amount := 0 }] := by
    exact filter_append_pair db.lineItems _ _ _ hwf2 (by simp) (by simp)
  rw [generateInvoice_eq_of_fresh db c s e now cust tier hdup2 hcust] at hok
  have hok2 : getInvoiceById (postGenDb db c s e now tier) db.nextInvoiceId = .ok r := hok
  rw [hget] at hok2
  have hr := Except.ok.inj hok2
  subst hr
  refine ⟨?_, rfl, rfl, rfl, ?_⟩
  · rw [generateInvoice_eq_of_fresh db c s e now cust tier hdup2 hcust]
    exact hget
  · exact hfilter

theorem generateInvoice_then_get_witness :
    getInvoiceById (generateInvoice s2Db 1 0 100 0).2 s2Response.id = .ok s2Response ∧
    s2Response.status = .PENDING ∧
    s2Response.amount = (⟨1, "Pro", 99, 1000⟩ : Tier).price ∧
    s2Response.totalUsage = countUsageForPeriod s2Db 1 0 100 ∧
    s2Response.lineItems =
      [{ id := s2Db.nextLineItemId, invoiceId := s2Db.nextInvoiceId,
         description := (⟨1, "Pro", 99, 1000⟩ : Tier).name ++ " Plan - " ++ monthYearString 0,
         quantity := 1, unitPrice := (⟨1, "Pro", 99, 1000⟩ : Tier).price,
         amount := (⟨1, "Pro", 99, 1000⟩ : Tier).price },
       { id := s2Db.nextLineItemId + 1, invoiceId := s2Db.nextInvoiceId,
         description := "API Calls: "
           ++ toString (countUsageForPeriod s2Db 1 0 100) ++ " requests",
         quantity := countUsageForPeriod s2Db 1 0 100, unitPrice := 0, amount := 0 }] :=
  generateInvoice_then_get s2Db 1 0 100 0 s2Response
    ⟨1, "Acme", "acme@example.com", 1, true, 0⟩ ⟨1, "Pro", 99, 1000⟩
    (by rfl) (by rfl) (by rfl)

/-! ## Claim about the billing period calculator -/

/-- A fresh customer created on 2024-01-31 with no invoices. -/
def cexDb7 : BillingDb :=
  { tiers := [⟨1, "Pro", 99, 1000⟩],
    customers := [⟨1, "Acme", "acme@example.com", 1, true, civilMs 2024 1 31⟩],
    usage := [], invoices := [], lineItems := [], nextInvoiceId := 1, nextLineItemId := 1 }

/-- Claim C7 counterexample: for a customer created on 2024-01-31 with
now = 2024-02-15, the code returns periodEnd = 2024-03-02 (JavaScript
`setMonth` rolls the day-of-month past the end of February) with
daysRemaining 16, while the claim's clamped month addition prescribes
periodEnd = 2024-02-29; the two differ. -/
theorem billingPeriod_overflow_cex :
    getCurrentBillingPeriod cexDb7 1 (civilMs 2024 2 15) =
      .ok { periodStart := civilMs 2024 1 31, periodEnd := civilMs 2024 3 2,
            daysRemaining := 16, cycleDay := 31 } ∧
    claimWindowClamped MAX_BP_ITERATIONS (civilMs 2024 2 15) (civilMs 2024 1 31) =
      some (civilMs 2024 1 31, civilMs 2024 2 29) ∧
    civilMs 2024 3 2 ≠ civilMs 2024 2 29 :=
  ⟨by rfl, by decide, by decide⟩

theorem bpLoopFresh_claimWindow (fuel : Nat) (now : Int) :
    ∀ s w, bpLoopFresh fuel now s = .ok w → claimWindowJS fuel now s = some w := by
  induction fuel with
  | zero =>
    intro s w h
    exact absurd h (by simp [bpLoopFresh])
  | succ n ih =>
    intro s w h
    unfold bpLoopFresh at h
    unfold claimWindowJS
    dsimp only at h ⊢
    by_cases hc : now ≥ s ∧ now < addOneMonthJS s
    · rw [if_pos hc] at h
      rw [if_pos ⟨hc.1, hc.2⟩]
      exact congrArg some (Except.ok.inj h)
    · rw [if_neg hc] at h
      rw [if_neg hc]
      by_cases hf : s > now
      · rw [if_pos hf] at h
        exact absurd h (by simp)
      · rw [if_neg hf] at h
        exact ih (addOneMonthJS s) w h

/-- Claim C7 (amended): for a customer with no invoices, a successful
getCurrentBillingPeriod returns exactly the window found by starting at
customer.createdAt and repeatedly adding one calendar month with
JavaScript overflow semantics (a day-of-month past the end of a shorter
target month rolls into the following month) until
periodStart ≤ now < periodEnd, with cycleDay = day-of-month(createdAt)
and daysRemaining = ceil((periodEnd − now) / 24h). -/
theorem getCurrentBillingPeriod_fresh (db : BillingDb) (c : Nat) (now : Int)
    (cust : Customer) (r : BillingPeriod)
    (hcust : db.customers.find? (fun x => x.id == c) = some cust)
    (hnoinv : lastInvoiceOf db c = none)
    (h : getCurrentBillingPeriod db c now = .ok r) :
    claimWindowJS MAX_BP_ITERATIONS now cust.createdAt = some (r.periodStart, r.periodEnd) ∧
    r.cycleDay = getDate cust.createdAt ∧
    r.daysRemaining = cdiv (r.periodEnd - now) dayMs := by
  unfold getCurrentBillingPeriod at h
  simp only [hcust, hnoinv] at h
  split at h
  · exact absurd h (by simp)
  · rename_i window ps pe heq
    have hr := Except.ok.inj h
    subst hr
    split at heq
    · exact absurd heq (by simp)
    · exact ⟨bpLoopFresh_claimWindow MAX_BP_ITERATIONS now cust.createdAt (ps, pe) heq,
        rfl, rfl⟩

/-- A fresh customer created on 2024-01-15 with no invoices. -/
def s5Db : BillingDb :=
  { tiers := [⟨1, "Pro", 99, 1000⟩],
    customers := [⟨1, "Acme", "acme@example.com", 1, true, civilMs 2024 1 15⟩],
    usage := [], invoices := [], lineItems := [], nextInvoiceId := 1, nextLineItemId := 1 }

theorem getCurrentBillingPeriod_fresh_witness :
    claimWindowJS MAX_BP_ITERATIONS (civilMs 2024 2 10) (civilMs 2024 1 15) =
      some (civilMs 2024 1 15, civilMs 2024 2 15) ∧
    (15 : Int) = getDate (civilMs 2024 1 15) ∧
    (5 : Int) = cdiv (civilMs 2024 2 15 - civilMs 2024 2 10) dayMs :=
  getCurrentBillingPeriod_fresh s5Db 1 (civilMs 2024 2 10)
    ⟨1, "Acme", "acme@example.com", 1, true, civilMs 2024 1 15⟩
    { periodStart := civilMs 2024 1 15, periodEnd := civilMs 2024 2 15,
      daysRemaining := 5, cycleDay := 15 }
    (by rfl) (by rfl) (by rfl)

end ApiMon
